import Mathlib

/-!
# gopherjs-live: change detection and dispatch

A shallow embedding of `main.go`: the digest mapping `fileHashes`, the change
detector `fileDidChange` with `calculateHashForPath`, the rebuild action
`recompile`, and one iteration of the event-processing goroutine of `main`.

The operating system and the libraries the program calls are the environment:
`os.Open` is a function from paths to open results, `io.Copy` delivers a prefix
of the file's bytes and possibly a read error, the digest is a parameter of the
change detector, and the build command is a function from its arguments to its
combined output and process error. The digest the program links against,
XXH64 with seed 0 of the xxhash library, is `xxhashSum`. A panic of the
goroutine (an index or slice expression out of range) is the result `none`.
-/

namespace GopherjsLive

/-! ## Data model -/

/-- One byte of a Go byte slice. -/
abbrev Byte := Fin 256

/-- Go byte slice; the nil slice is the empty list. -/
abbrev Bytes := List Byte

/-- Go `error` value: its message and what `os.IsNotExist` answers for it. -/
structure GoError where
  msg : String
  notExist : Bool
deriving DecidableEq, Repr

/-- Go `errors.New`: an error carrying exactly the given text. -/
def errorsNew (text : String) : GoError :=
  { msg := text, notExist := false }

/-- An open file: the bytes it holds, and the read fault (if any) that stops a
sequential read after the given number of bytes. -/
structure File where
  content : Bytes
  fault : Option (Nat × GoError)
deriving DecidableEq, Repr

/-- Go `io.Copy(h, f)`: the bytes written to the hasher and the error returned.
A read fault ends the copy after the bytes read so far. -/
def ioCopy (f : File) : Bytes × Option GoError :=
  match f.fault with
  | none => (f.content, none)
  | some (n, e) => (f.content.take n, some e)

/-- The file system as `os.Open` sees it: an open error or an open file. -/
abbrev FS := String → Except GoError File

/-- The global `fileHashes`, a `map[string][]byte`. -/
abbrev FileHashes := String → Option Bytes

/-- The initial value of `fileHashes`: the empty map. -/
def emptyHashes : FileHashes := fun _ => none

/-- Map assignment `fileHashes[path] = newHash`. -/
def setHash (m : FileHashes) (path : String) (newHash : Bytes) : FileHashes :=
  fun q => if q = path then some newHash else m q

/-- Map deletion `delete(fileHashes, path)`. -/
def deleteHash (m : FileHashes) (path : String) : FileHashes :=
  fun q => if q = path then none else m q

/-! ## The digest: XXH64 with seed 0

The hash behind `xxhash.New64()`, `Write` and `Sum(nil)` of the library
`github.com/OneOfOne/xxhash`: the XXH64 algorithm on 64-bit words, every sum
and product taken modulo `2 ^ 64`. -/

/-- XXH64 constant `PRIME64_1`. -/
def prime64_1 : Nat := 0x9E3779B185EBCA87

/-- XXH64 constant `PRIME64_2`. -/
def prime64_2 : Nat := 0xC2B2AE3D27D4EB4F

/-- XXH64 constant `PRIME64_3`. -/
def prime64_3 : Nat := 0x165667B19E3779F9

/-- XXH64 constant `PRIME64_4`. -/
def prime64_4 : Nat := 0x85EBCA77C2B2AE63

/-- XXH64 constant `PRIME64_5`. -/
def prime64_5 : Nat := 0x27D4EB2F165667C5

/-- Rotate a 64-bit word left by `r` bits. -/
def rotl64 (x r : Nat) : Nat := ((x <<< r) ||| (x >>> (64 - r))) % 2 ^ 64

/-- XXH64 round: `acc += input * PRIME64_2; acc = rotl(acc, 31); acc *= PRIME64_1`. -/
def round64 (acc input : Nat) : Nat :=
  (rotl64 ((acc + input * prime64_2) % 2 ^ 64) 31 * prime64_1) % 2 ^ 64

/-- XXH64 merge round: `acc ^= round(0, val); acc = acc * PRIME64_1 + PRIME64_4`. -/
def mergeRound64 (acc val : Nat) : Nat :=
  ((acc ^^^ round64 0 val) * prime64_1 + prime64_4) % 2 ^ 64

/-- Little-endian read of a run of bytes as one word. -/
def readLE : List Nat → Nat
  | [] => 0
  | b :: rest => b + 256 * readLE rest

/-- The main loop of XXH64 over `n` stripes of 32 bytes: the four accumulators
and the bytes left over. -/
def stripes64 : Nat → List Nat → Nat × Nat × Nat × Nat → (Nat × Nat × Nat × Nat) × List Nat
  | 0, p, v => (v, p)
  | n + 1, p, (v1, v2, v3, v4) =>
    stripes64 n (p.drop 32)
      (round64 v1 (readLE (p.take 8)),
       round64 v2 (readLE ((p.drop 8).take 8)),
       round64 v3 (readLE ((p.drop 16).take 8)),
       round64 v4 (readLE ((p.drop 24).take 8)))

/-- The tail of XXH64, `n` words of 8 bytes:
`h ^= round(0, word); h = rotl(h, 27) * PRIME64_1 + PRIME64_4`. -/
def tailWords64 : Nat → List Nat → Nat → Nat × List Nat
  | 0, p, h => (h, p)
  | n + 1, p, h =>
    tailWords64 n (p.drop 8)
      ((rotl64 (h ^^^ round64 0 (readLE (p.take 8))) 27 * prime64_1 + prime64_4) % 2 ^ 64)

/-- The tail of XXH64, byte by byte:
`h ^= byte * PRIME64_5; h = rotl(h, 11) * PRIME64_1`. -/
def tailBytes64 : List Nat → Nat → Nat
  | [], h => h
  | b :: rest, h =>
    tailBytes64 rest ((rotl64 (h ^^^ (b * prime64_5) % 2 ^ 64) 11 * prime64_1) % 2 ^ 64)

/-- The final mix of XXH64. -/
def avalanche64 (h : Nat) : Nat :=
  let h := h ^^^ (h >>> 33)
  let h := (h * prime64_2) % 2 ^ 64
  let h := h ^^^ (h >>> 29)
  let h := (h * prime64_3) % 2 ^ 64
  h ^^^ (h >>> 32)

/-- The library's `Sum64()` for seed 0: the XXH64 hash of the bytes written. -/
def sum64 (input : List Nat) : Nat :=
  let len := input.length
  let (h, p) :=
    if len ≥ 32 then
      match stripes64 (len / 32) input
          ((prime64_1 + prime64_2) % 2 ^ 64, prime64_2, 0, (2 ^ 64 - prime64_1) % 2 ^ 64) with
      | ((v1, v2, v3, v4), p) =>
        let h := (rotl64 v1 1 + rotl64 v2 7 + rotl64 v3 12 + rotl64 v4 18) % 2 ^ 64
        (mergeRound64 (mergeRound64 (mergeRound64 (mergeRound64 h v1) v2) v3) v4, p)
    else (prime64_5, input)
  let h := (h + len) % 2 ^ 64
  let (h, p) := tailWords64 (p.length / 8) p h
  let (h, p) :=
    if p.length ≥ 4 then
      ((rotl64 (h ^^^ (readLE (p.take 4) * prime64_1) % 2 ^ 64) 23 * prime64_2 + prime64_3)
        % 2 ^ 64, p.drop 4)
    else (h, p)
  avalanche64 (tailBytes64 p h)

/-- The library's `h.Sum(nil)` after the bytes were written to
`h := xxhash.New64()`: the eight bytes of `Sum64()`, most significant first. -/
def xxhashSum (written : Bytes) : Bytes :=
  let s := sum64 (written.map Fin.val)
  (List.range 8).map (fun i => Fin.ofNat ((s >>> (56 - 8 * i)) % 256))

/-! ## The change detector -/

/-- Source `calculateHashForPath`: the digest of the file at `path`, whether the
file exists, and the error. `xxhash` is the digest `h.Sum(nil)` of the bytes
written to `h := xxhash.New64()`. The result of `io.Copy` is discarded, as in
the source. -/
def calculateHashForPath (xxhash : Bytes → Bytes) (fs : FS) (path : String) :
    Bytes × Bool × Option GoError :=
  match fs path with
  | .error err =>
    if err.notExist then ([], false, none)
    else ([], false, some err)
  | .ok f =>
    let result := xxhash (ioCopy f).1
    (result, true, none)

/-- Source `fileDidChange`: the pair `(changed, err)` it returns and the value
of `fileHashes` after the call. -/
def fileDidChange (xxhash : Bytes → Bytes) (fs : FS) (fileHashes : FileHashes)
    (path : String) : (Bool × Option GoError) × FileHashes :=
  match fileHashes path with
  | none =>
    match calculateHashForPath xxhash fs path with
    | (newHash, fileExists, err) =>
      if err ≠ none then ((false, err), fileHashes)
      else if fileExists then ((true, none), setHash fileHashes path newHash)
      else ((true, none), fileHashes)
  | some hash =>
    match calculateHashForPath xxhash fs path with
    | (newHash, fileExists, err) =>
      if err ≠ none then ((false, err), fileHashes)
      else if !fileExists then ((true, none), deleteHash fileHashes path)
      else if newHash ≠ hash then ((true, none), setHash fileHashes path newHash)
      else ((false, none), fileHashes)

/-! ## The rebuild action -/

/-- The build command as the environment runs it: from the program name and its
arguments to `cmd.CombinedOutput()`, the combined output text and the process
error. -/
abbrev Exec := String → List String → String × Option GoError

/-- Go slice expression `os.Args[1:]`: `none` is the slice-bounds panic on an
empty `os.Args`. -/
def argsFrom1 (osArgs : List String) : Option (List String) :=
  match osArgs with
  | [] => none
  | _ :: rest => some rest

/-- Source `recompile`: runs `gopherjs build` with the program's own arguments
passed through and turns the outcome into an error value. The outer `none` is
the panic of `os.Args[1:]`; `some none` is the returned `nil`, `some (some e)`
the returned error `e`. -/
def recompile (exec : Exec) (osArgs : List String) : Option (Option GoError) :=
  match argsFrom1 osArgs with
  | none => none
  | some passed =>
    let args := ["build"] ++ passed
    match exec "gopherjs" args with
    | (out, some err) =>
      if out.length ≠ 0 then some (some (errorsNew out))
      else some (some err)
    | (out, none) =>
      if out.length ≠ 0 then some (some (errorsNew out))
      else some none

/-! ## Paths -/

/-- Go `os.IsPathSeparator` on Unix. -/
def isPathSeparator (c : Char) : Bool := c == '/'

/-- The first loop of Go `filepath.Base`, on the reversed path: strip trailing
separators. -/
def stripTrailing : List Char → List Char
  | [] => []
  | c :: rest => if isPathSeparator c then stripTrailing rest else c :: rest

/-- The second loop of Go `filepath.Base`, on the reversed path: the characters
after the last separator, collected in path order. -/
def lastElement : List Char → List Char → List Char
  | [], acc => acc
  | c :: rest, acc => if isPathSeparator c then acc else lastElement rest (c :: acc)

/-- Go `filepath.Base` on Unix: the last element of the path. -/
def filepathBase (path : String) : String :=
  if path = "" then "."
  else
    let p := lastElement (stripTrailing path.toList.reverse) []
    if p = [] then "/" else String.mk p

/-- The loop of Go `filepath.Ext`, on the reversed path: scan back to the last
dot of the last element. -/
def extLoop : List Char → List Char → List Char
  | [], _ => []
  | c :: rest, acc =>
    if isPathSeparator c then []
    else if c = '.' then c :: acc
    else extLoop rest (c :: acc)

/-- Go `filepath.Ext`: the suffix of the last element from its last dot. -/
def filepathExt (path : String) : String :=
  String.mk (extLoop path.toList.reverse [])

/-- Go index expression `s[0]`: `none` is the index-out-of-range panic. -/
def firstChar (s : String) : Option Char := s.toList.head?

/-! ## The dispatch loop -/

/-- What one iteration of the event loop does, in order: the calls it makes
and the notice it prints. -/
inductive Effect where
  | fileDidChangeCall (path : String)
  | chimeError (err : GoError)
  | printChange (path : String)
  | recompileCall (args : List String)
deriving DecidableEq, Repr

/-- What `select` receives: an event of `watcher.Event` (only its `Name` is
used) or an error of `watcher.Error`. -/
inductive Msg where
  | event (name : String)
  | error (err : GoError)
deriving DecidableEq, Repr

/-- The environment while one message is processed. -/
structure World where
  fs : FS
  exec : Exec

/-- The effects of lines 59 to 62: the change notice, the call `recompile()`
and `chimeError` on its error. `none` when `recompile` panics. -/
def rebuild (w : World) (osArgs : List String) (name : String) : Option (List Effect) :=
  match recompile w.exec osArgs with
  | none => none
  | some result =>
    some ([Effect.printChange name, Effect.recompileCall (["build"] ++ osArgs.drop 1)] ++
      (match result with
       | some err => [Effect.chimeError err]
       | none => []))

/-- One iteration of the `for`/`select` loop in `main`: the effects in order
and `fileHashes` afterwards. `none` is a panic of the goroutine. -/
def step (xxhash : Bytes → Bytes) (osArgs : List String) (w : World)
    (fileHashes : FileHashes) : Msg → Option (List Effect × FileHashes)
  | .event name =>
    match fileDidChange xxhash w.fs fileHashes name with
    | ((_, some err), fh) =>
      some ([Effect.fileDidChangeCall name, Effect.chimeError err], fh)
    | ((true, none), fh) =>
      match firstChar (filepathBase name) with
      | none => none
      | some c =>
        if c = '.' then some ([Effect.fileDidChangeCall name], fh)
        else if filepathExt name ≠ ".go" then some ([Effect.fileDidChangeCall name], fh)
        else
          match rebuild w osArgs name with
          | none => none
          | some effects => some (Effect.fileDidChangeCall name :: effects, fh)
    | ((false, none), fh) => some ([Effect.fileDidChangeCall name], fh)
  | .error err => some ([Effect.chimeError err], fileHashes)

/-- The event loop on the first messages of the two channels, each with the
environment it is processed in: all effects in order and the final
`fileHashes`; `none` when an iteration panics. -/
def eventLoop (xxhash : Bytes → Bytes) (osArgs : List String) :
    List (World × Msg) → FileHashes → Option (List Effect × FileHashes)
  | [], fh => some ([], fh)
  | (w, m) :: rest, fh =>
    match step xxhash osArgs w fh m with
    | none => none
    | some (t, fh1) =>
      match eventLoop xxhash osArgs rest fh1 with
      | none => none
      | some (ts, fh2) => some (t ++ ts, fh2)

/-- The ignore test of the loop (lines 51 and 55): the base name starts with a
dot or the extension is not `.go`. -/
def ignored (name : String) : Bool :=
  firstChar (filepathBase name) == some '.' || filepathExt name != ".go"

/-! ## Concrete environments used in the examples -/

/-- A digest used in examples: eight bytes, the first the sum of the content
modulo 256. -/
def sumDigest (b : Bytes) : Bytes :=
  (b.foldl (fun acc x => acc + x) 0) :: List.replicate 7 0

/-- A file read without fault. -/
def plainFile (content : Bytes) : File := { content := content, fault := none }

/-- The error `os.Open` gives for a missing file. -/
def enoent : GoError := { msg := "no such file or directory", notExist := true }

/-- The error `os.Open` gives for a file the process may not read. -/
def eacces : GoError := { msg := "permission denied", notExist := false }

/-- A file system holding a single file. -/
def singleFile (path : String) (f : File) : FS :=
  fun q => if q = path then .ok f else .error enoent

/-- A build that succeeds silently. -/
def quietExec : Exec := fun _ _ => ("", none)

/-- A file of three bytes whose read fails after the first byte. -/
def faultyFile : File :=
  { content := [1, 2, 3], fault := some (1, { msg := "input/output error", notExist := false }) }

/-- An environment with the single file `b.txt` and a silent build. -/
def txtWorld : World := { fs := singleFile "b.txt" (plainFile [120]), exec := quietExec }

/-- An environment with the single file `a.go` and a silent build. -/
def goWorld : World := { fs := singleFile "a.go" (plainFile [120]), exec := quietExec }

/-- The error a failing read gives. -/
def eio : GoError := { msg := "input/output error", notExist := false }

/-- The file `[120]` after an edit appended a byte, read with a fault that
stops the read after the first byte. -/
def faultyEdit : File := { content := [120, 5], fault := some (1, eio) }

/-- A content of 64 bytes. -/
def collisionA : Bytes :=
  [0, 1, 2, 3, 4, 5, 6, 7, 8, 9, 10, 11, 12, 13, 14, 15,
   16, 17, 18, 19, 20, 21, 22, 23, 24, 25, 26, 27, 28, 29, 30, 31,
   32, 33, 34, 35, 36, 37, 38, 39, 40, 41, 42, 43, 44, 45, 46, 47,
   48, 49, 50, 51, 52, 53, 54, 55, 56, 57, 58, 59, 60, 61, 62, 63]

/-- Another content of 64 bytes: it differs from `collisionA` in bytes 0 and
32 to 39 and has the same XXH64 hash, `0xf7c67301db6713f0`. -/
def collisionB : Bytes :=
  [1, 1, 2, 3, 4, 5, 6, 7, 8, 9, 10, 11, 12, 13, 14, 15,
   16, 17, 18, 19, 20, 21, 22, 23, 24, 25, 26, 27, 28, 29, 30, 31,
   146, 103, 191, 75, 5, 232, 4, 72, 40, 41, 42, 43, 44, 45, 46, 47,
   48, 49, 50, 51, 52, 53, 54, 55, 56, 57, 58, 59, 60, 61, 62, 63]

/-- A build that exits abnormally without output. -/
def failingExec : Exec := fun _ _ => ("", some { msg := "exit status 1", notExist := false })

/-- A build that prints a compile error and exits abnormally. -/
def noisyExec : Exec :=
  fun _ _ => ("main.go:3: syntax error", some { msg := "exit status 1", notExist := false })

/-! ## Basic facts about the embedding -/

theorem setHash_same (m : FileHashes) (p : String) (d : Bytes) : setHash m p d p = some d := by
  simp [setHash]

theorem deleteHash_same (m : FileHashes) (p : String) : deleteHash m p p = none := by
  simp [deleteHash]

theorem calculateHashForPath_opened (xxhash : Bytes → Bytes) (fs : FS) (p : String) (f : File)
    (hopen : fs p = .ok f) :
    calculateHashForPath xxhash fs p = (xxhash (ioCopy f).1, true, none) := by
  simp [calculateHashForPath, hopen]

theorem calculateHashForPath_absent (xxhash : Bytes → Bytes) (fs : FS) (p : String) (e : GoError)
    (hopen : fs p = .error e) (hne : e.notExist = true) :
    calculateHashForPath xxhash fs p = ([], false, none) := by
  simp [calculateHashForPath, hopen, hne]

theorem calculateHashForPath_failed (xxhash : Bytes → Bytes) (fs : FS) (p : String) (e : GoError)
    (hopen : fs p = .error e) (hne : e.notExist = false) :
    calculateHashForPath xxhash fs p = ([], false, some e) := by
  simp [calculateHashForPath, hopen, hne]

theorem ioCopy_plain (f : File) (hread : f.fault = none) : ioCopy f = (f.content, none) := by
  simp [ioCopy, hread]

/-- First call on an unseen path whose file opens: changed, digest stored. -/
theorem fileDidChange_unseen_opened (xxhash : Bytes → Bytes) (fs : FS) (fh : FileHashes)
    (p : String) (f : File) (hnew : fh p = none) (hopen : fs p = .ok f) :
    fileDidChange xxhash fs fh p = ((true, none), setHash fh p (xxhash (ioCopy f).1)) := by
  simp [fileDidChange, hnew, calculateHashForPath_opened xxhash fs p f hopen]

/-- Call on a tracked path whose file opens: compare the digests. -/
theorem fileDidChange_tracked_opened (xxhash : Bytes → Bytes) (fs : FS) (fh : FileHashes)
    (p : String) (f : File) (hash : Bytes) (hold : fh p = some hash) (hopen : fs p = .ok f) :
    fileDidChange xxhash fs fh p =
      if xxhash (ioCopy f).1 ≠ hash then ((true, none), setHash fh p (xxhash (ioCopy f).1))
      else ((false, none), fh) := by
  simp [fileDidChange, hold, calculateHashForPath_opened xxhash fs p f hopen]

/-- An open error other than non-existence leaves everything as it was. -/
theorem fileDidChange_failed (xxhash : Bytes → Bytes) (fs : FS) (fh : FileHashes)
    (p : String) (e : GoError) (hopen : fs p = .error e) (hne : e.notExist = false) :
    fileDidChange xxhash fs fh p = ((false, some e), fh) := by
  cases hfh : fh p <;>
    simp [fileDidChange, hfh, calculateHashForPath_failed xxhash fs p e hopen hne]

/-- A missing file: changed is reported; a tracked entry is removed. -/
theorem fileDidChange_absent (xxhash : Bytes → Bytes) (fs : FS) (fh : FileHashes)
    (p : String) (e : GoError) (hopen : fs p = .error e) (hne : e.notExist = true) :
    fileDidChange xxhash fs fh p =
      ((true, none), match fh p with
                     | none => fh
                     | some _ => deleteHash fh p) := by
  cases hfh : fh p <;>
    simp [fileDidChange, hfh, calculateHashForPath_absent xxhash fs p e hopen hne]

/-! ## The change detector: claims -/

/-- C1 (debounce). A path with no entry whose file opens, is read in full and
holds the same content at both calls: the first `fileDidChange` returns
`(true, nil)`, the second returns `(false, nil)`, and the second call leaves
`fileHashes` exactly as the first call left it. -/
theorem fileDidChange_debounce (xxhash : Bytes → Bytes) (fs1 fs2 : FS) (fh : FileHashes)
    (p : String) (f1 f2 : File)
    (hnew : fh p = none) (hopen1 : fs1 p = .ok f1) (hopen2 : fs2 p = .ok f2)
    (hread1 : f1.fault = none) (hread2 : f2.fault = none)
    (hsame : f2.content = f1.content) :
    (fileDidChange xxhash fs1 fh p).1 = (true, none) ∧
    (fileDidChange xxhash fs2 (fileDidChange xxhash fs1 fh p).2 p).1 = (false, none) ∧
    (fileDidChange xxhash fs2 (fileDidChange xxhash fs1 fh p).2 p).2 =
      (fileDidChange xxhash fs1 fh p).2 := by
  rw [fileDidChange_unseen_opened xxhash fs1 fh p f1 hnew hopen1]
  rw [fileDidChange_tracked_opened xxhash fs2 _ p f2 _ (setHash_same fh p _) hopen2]
  simp [ioCopy_plain f1 hread1, ioCopy_plain f2 hread2, hsame]

theorem fileDidChange_debounce_witness :
    emptyHashes "a.go" = none ∧
    (fileDidChange sumDigest (singleFile "a.go" (plainFile [120])) emptyHashes "a.go").1
      = (true, none) ∧
    (fileDidChange sumDigest (singleFile "a.go" (plainFile [120]))
      (fileDidChange sumDigest (singleFile "a.go" (plainFile [120])) emptyHashes "a.go").2
      "a.go").1 = (false, none) ∧
    (fileDidChange sumDigest (singleFile "a.go" (plainFile [120]))
      (fileDidChange sumDigest (singleFile "a.go" (plainFile [120])) emptyHashes "a.go").2
      "a.go").2 =
      (fileDidChange sumDigest (singleFile "a.go" (plainFile [120])) emptyHashes "a.go").2 :=
  ⟨rfl, fileDidChange_debounce sumDigest (singleFile "a.go" (plainFile [120]))
    (singleFile "a.go" (plainFile [120])) emptyHashes "a.go" (plainFile [120]) (plainFile [120])
    rfl rfl rfl rfl rfl rfl⟩

/-- C2 as stated fails: for the never-seen, missing path `a.go` the call
returns `changed = true`, not `false`. -/
theorem fileDidChange_never_seen_absent_counterexample :
    emptyHashes "a.go" = none ∧
    (fun _ => Except.error enoent : FS) "a.go" = Except.error enoent ∧
    enoent.notExist = true ∧
    (fileDidChange sumDigest (fun _ => Except.error enoent) emptyHashes "a.go").1
      = (true, none) ∧
    (fileDidChange sumDigest (fun _ => Except.error enoent) emptyHashes "a.go").1.1
      ≠ false :=
  ⟨rfl, rfl, rfl, by decide, by decide⟩

/-- C2 (amended). A path whose file does not exist and that has no entry:
`fileDidChange` returns `(true, nil)` and leaves `fileHashes` unchanged. In
particular, when the path has an entry and the file is gone, the call that
follows the deletion-detecting call (file still absent) again returns
`(true, nil)` and changes nothing. -/
theorem fileDidChange_never_seen_absent (xxhash : Bytes → Bytes) (fs : FS) (fh : FileHashes)
    (p : String) (e : GoError) (habsent : fs p = .error e) (hne : e.notExist = true) :
    (fh p = none → fileDidChange xxhash fs fh p = ((true, none), fh)) ∧
    (fh p ≠ none →
      fileDidChange xxhash fs (fileDidChange xxhash fs fh p).2 p =
        ((true, none), (fileDidChange xxhash fs fh p).2)) := by
  constructor
  · intro hnew
    rw [fileDidChange_absent xxhash fs fh p e habsent hne, hnew]
  · intro hold
    rw [fileDidChange_absent xxhash fs fh p e habsent hne]
    cases hfh : fh p with
    | none => exact absurd hfh hold
    | some h =>
      simp only []
      rw [fileDidChange_absent xxhash fs _ p e habsent hne, deleteHash_same]

theorem fileDidChange_never_seen_absent_witness :
    (fun _ => Except.error enoent : FS) "a.go" = Except.error enoent ∧
    enoent.notExist = true ∧
    ((emptyHashes "a.go" = none →
      fileDidChange sumDigest (fun _ => Except.error enoent) emptyHashes "a.go"
        = ((true, none), emptyHashes)) ∧
     (emptyHashes "a.go" ≠ none →
      fileDidChange sumDigest (fun _ => Except.error enoent)
        (fileDidChange sumDigest (fun _ => Except.error enoent) emptyHashes "a.go").2 "a.go" =
        ((true, none),
          (fileDidChange sumDigest (fun _ => Except.error enoent) emptyHashes "a.go").2))) :=
  ⟨rfl, rfl, fileDidChange_never_seen_absent sumDigest (fun _ => Except.error enoent)
    emptyHashes "a.go" enoent rfl rfl⟩

/-- C4 (deletion of a tracked path). A path with an entry whose file no longer
exists: `fileDidChange` returns `(true, nil)`, the mapping afterwards has no
entry for the path, and every other entry is as before. -/
theorem fileDidChange_deletion (xxhash : Bytes → Bytes) (fs : FS) (fh : FileHashes)
    (p : String) (hash : Bytes) (e : GoError)
    (hold : fh p = some hash) (habsent : fs p = .error e) (hne : e.notExist = true) :
    (fileDidChange xxhash fs fh p).1 = (true, none) ∧
    (fileDidChange xxhash fs fh p).2 p = none ∧
    ∀ q, q ≠ p → (fileDidChange xxhash fs fh p).2 q = fh q := by
  rw [fileDidChange_absent xxhash fs fh p e habsent hne, hold]
  refine ⟨rfl, deleteHash_same fh p, ?_⟩
  intro q hq
  simp [deleteHash, hq]

theorem fileDidChange_deletion_witness :
    setHash emptyHashes "a.go" (sumDigest [120]) "a.go" = some (sumDigest [120]) ∧
    (fileDidChange sumDigest (fun _ => Except.error enoent)
      (setHash emptyHashes "a.go" (sumDigest [120])) "a.go").1 = (true, none) ∧
    (fileDidChange sumDigest (fun _ => Except.error enoent)
      (setHash emptyHashes "a.go" (sumDigest [120])) "a.go").2 "a.go" = none ∧
    ∀ q, q ≠ "a.go" →
      (fileDidChange sumDigest (fun _ => Except.error enoent)
        (setHash emptyHashes "a.go" (sumDigest [120])) "a.go").2 q =
      setHash emptyHashes "a.go" (sumDigest [120]) q :=
  ⟨by decide, fileDidChange_deletion sumDigest (fun _ => Except.error enoent)
    (setHash emptyHashes "a.go" (sumDigest [120])) "a.go" (sumDigest [120]) enoent
    (by decide) rfl rfl⟩

/-- C5 as stated fails. The path `a.go` has no entry and its file opens, but
the read stops after one of its three bytes: `fileDidChange` returns
`(true, nil)` and the mapping holds the XXH64 digest of the one byte read,
which is not the digest of the file's content. -/
theorem fileDidChange_first_sighting_counterexample :
    emptyHashes "a.go" = none ∧
    singleFile "a.go" faultyFile "a.go" = Except.ok faultyFile ∧
    faultyFile.content = [1, 2, 3] ∧
    (fileDidChange xxhashSum (singleFile "a.go" faultyFile) emptyHashes "a.go").1
      = (true, none) ∧
    (fileDidChange xxhashSum (singleFile "a.go" faultyFile) emptyHashes "a.go").2 "a.go"
      = some (xxhashSum [1]) ∧
    (fileDidChange xxhashSum (singleFile "a.go" faultyFile) emptyHashes "a.go").2 "a.go"
      ≠ some (xxhashSum faultyFile.content) :=
  ⟨rfl, rfl, rfl, by decide, by decide, by decide⟩

/-- C5 (amended). A path with no entry whose file opens and is read in full:
`fileDidChange` returns `(true, nil)` whatever the file holds, and afterwards
the mapping holds for the path the digest of the file's content; the other
entries are as before. -/
theorem fileDidChange_first_sighting (xxhash : Bytes → Bytes) (fs : FS) (fh : FileHashes)
    (p : String) (f : File) (hnew : fh p = none) (hopen : fs p = .ok f)
    (hread : f.fault = none) :
    (fileDidChange xxhash fs fh p).1 = (true, none) ∧
    (fileDidChange xxhash fs fh p).2 p = some (xxhash f.content) ∧
    ∀ q, q ≠ p → (fileDidChange xxhash fs fh p).2 q = fh q := by
  rw [fileDidChange_unseen_opened xxhash fs fh p f hnew hopen, ioCopy_plain f hread]
  refine ⟨rfl, setHash_same fh p _, ?_⟩
  intro q hq
  simp [setHash, hq]

theorem fileDidChange_first_sighting_witness :
    emptyHashes "a.go" = none ∧
    singleFile "a.go" (plainFile [120, 10]) "a.go" = Except.ok (plainFile [120, 10]) ∧
    (plainFile [120, 10]).fault = none ∧
    (fileDidChange xxhashSum (singleFile "a.go" (plainFile [120, 10])) emptyHashes "a.go").1
      = (true, none) ∧
    (fileDidChange xxhashSum (singleFile "a.go" (plainFile [120, 10])) emptyHashes "a.go").2
      "a.go" = some (xxhashSum (plainFile [120, 10]).content) ∧
    ∀ q, q ≠ "a.go" →
      (fileDidChange xxhashSum (singleFile "a.go" (plainFile [120, 10])) emptyHashes "a.go").2 q
        = emptyHashes q :=
  ⟨rfl, rfl, rfl, fileDidChange_first_sighting xxhashSum (singleFile "a.go" (plainFile [120, 10]))
    emptyHashes "a.go" (plainFile [120, 10]) rfl rfl rfl⟩

/-- C6 as stated fails, at two inputs, both with the XXH64 digest of the
program. First: `a.go` is presented with the content `collisionA` and then
modified to `collisionB`, a different content with the same XXH64 hash; the
second call returns `(false, nil)`. Second: `a.go` is presented with the
content `[120]` and then modified to `[120, 5]`, and the read of the second
call stops after the first byte; the second call returns `(false, nil)`. -/
theorem fileDidChange_rechange_counterexample :
    (collisionB ≠ collisionA ∧
      sum64 (collisionA.map Fin.val) = 0xf7c67301db6713f0 ∧
      sum64 (collisionB.map Fin.val) = 0xf7c67301db6713f0 ∧
      (fileDidChange xxhashSum (singleFile "a.go" (plainFile collisionA)) emptyHashes
        "a.go").2 "a.go" = some (xxhashSum collisionA) ∧
      (fileDidChange xxhashSum (singleFile "a.go" (plainFile collisionB))
        (fileDidChange xxhashSum (singleFile "a.go" (plainFile collisionA)) emptyHashes
          "a.go").2 "a.go").1 = (false, none)) ∧
    (faultyEdit.content ≠ [120] ∧
      (fileDidChange xxhashSum (singleFile "a.go" (plainFile [120])) emptyHashes
        "a.go").2 "a.go" = some (xxhashSum [120]) ∧
      (fileDidChange xxhashSum (singleFile "a.go" faultyEdit)
        (fileDidChange xxhashSum (singleFile "a.go" (plainFile [120])) emptyHashes
          "a.go").2 "a.go").1 = (false, none)) :=
  ⟨⟨by decide, by decide, by decide, by decide, by decide⟩,
    ⟨by decide, by decide, by decide⟩⟩

/-- C6 (amended). A path whose entry is the digest of its earlier content: if
the file is modified before the next call, is read in full at that call and at
the one after it, and the digest of the new content differs from the stored
digest, then that call returns `(true, nil)` and stores the digest of the new
content, and a further call with no modification returns `(false, nil)`. -/
theorem fileDidChange_rechange (xxhash : Bytes → Bytes) (fs2 fs3 : FS) (fh : FileHashes)
    (p : String) (old : Bytes) (f2 f3 : File)
    (hold : fh p = some (xxhash old))
    (hopen2 : fs2 p = .ok f2) (hopen3 : fs3 p = .ok f3)
    (hread2 : f2.fault = none) (hread3 : f3.fault = none)
    (hdiff : xxhash f2.content ≠ xxhash old)
    (hsame : f3.content = f2.content) :
    (fileDidChange xxhash fs2 fh p).1 = (true, none) ∧
    (fileDidChange xxhash fs2 fh p).2 p = some (xxhash f2.content) ∧
    (fileDidChange xxhash fs3 (fileDidChange xxhash fs2 fh p).2 p).1 = (false, none) := by
  have h2 : fileDidChange xxhash fs2 fh p = ((true, none), setHash fh p (xxhash f2.content)) := by
    rw [fileDidChange_tracked_opened xxhash fs2 fh p f2 _ hold hopen2, ioCopy_plain f2 hread2]
    simp [hdiff]
  rw [h2]
  refine ⟨rfl, setHash_same fh p _, ?_⟩
  rw [fileDidChange_tracked_opened xxhash fs3 _ p f3 _ (setHash_same fh p _) hopen3,
    ioCopy_plain f3 hread3]
  simp [hsame]

theorem fileDidChange_rechange_witness :
    (fileDidChange xxhashSum (singleFile "a.go" (plainFile [120])) emptyHashes "a.go").2 "a.go"
      = some (xxhashSum [120]) ∧
    xxhashSum (plainFile [121]).content ≠ xxhashSum [120] ∧
    (fileDidChange xxhashSum (singleFile "a.go" (plainFile [121]))
      (fileDidChange xxhashSum (singleFile "a.go" (plainFile [120])) emptyHashes "a.go").2
      "a.go").1 = (true, none) ∧
    (fileDidChange xxhashSum (singleFile "a.go" (plainFile [121]))
      (fileDidChange xxhashSum (singleFile "a.go" (plainFile [120])) emptyHashes "a.go").2
      "a.go").2 "a.go" = some (xxhashSum (plainFile [121]).content) ∧
    (fileDidChange xxhashSum (singleFile "a.go" (plainFile [121]))
      (fileDidChange xxhashSum (singleFile "a.go" (plainFile [121]))
        (fileDidChange xxhashSum (singleFile "a.go" (plainFile [120])) emptyHashes "a.go").2
        "a.go").2 "a.go").1 = (false, none) :=
  ⟨by decide, by decide,
    fileDidChange_rechange xxhashSum (singleFile "a.go" (plainFile [121]))
      (singleFile "a.go" (plainFile [121]))
      (fileDidChange xxhashSum (singleFile "a.go" (plainFile [120])) emptyHashes "a.go").2
      "a.go" [120] (plainFile [121]) (plainFile [121])
      (by decide) rfl rfl rfl rfl (by decide) rfl⟩

/-- C7 (open failure is atomic). When the file cannot be opened for a reason
other than non-existence, `fileDidChange` returns `changed = false` with the
open error and `fileHashes` is exactly what it was, so any later call, for any
path and file system, gives the result it would have given without the
failing call. -/
theorem fileDidChange_open_failure (xxhash : Bytes → Bytes) (fs : FS) (fh : FileHashes)
    (p : String) (e : GoError) (hfail : fs p = .error e) (hne : e.notExist = false) :
    (fileDidChange xxhash fs fh p).1 = (false, some e) ∧
    (fileDidChange xxhash fs fh p).2 = fh ∧
    ∀ (fs1 : FS) (q : String),
      fileDidChange xxhash fs1 (fileDidChange xxhash fs fh p).2 q =
        fileDidChange xxhash fs1 fh q := by
  rw [fileDidChange_failed xxhash fs fh p e hfail hne]
  exact ⟨rfl, rfl, fun _ _ => rfl⟩

theorem fileDidChange_open_failure_witness :
    (fun _ => Except.error eacces : FS) "a.go" = Except.error eacces ∧
    eacces.notExist = false ∧
    (fileDidChange sumDigest (fun _ => Except.error eacces)
      (setHash emptyHashes "a.go" (sumDigest [120])) "a.go").1 = (false, some eacces) ∧
    (fileDidChange sumDigest (fun _ => Except.error eacces)
      (setHash emptyHashes "a.go" (sumDigest [120])) "a.go").2
      = setHash emptyHashes "a.go" (sumDigest [120]) ∧
    ∀ (fs1 : FS) (q : String),
      fileDidChange sumDigest fs1
        (fileDidChange sumDigest (fun _ => Except.error eacces)
          (setHash emptyHashes "a.go" (sumDigest [120])) "a.go").2 q =
        fileDidChange sumDigest fs1 (setHash emptyHashes "a.go" (sumDigest [120])) q :=
  ⟨rfl, rfl, fileDidChange_open_failure sumDigest (fun _ => Except.error eacces)
    (setHash emptyHashes "a.go" (sumDigest [120])) "a.go" eacces rfl rfl⟩

/-- A read fault is never returned: for every file that opens,
`calculateHashForPath` reports no error and the digest of the bytes read
before the fault. -/
theorem calculateHashForPath_drops_read_error (xxhash : Bytes → Bytes) (fs : FS) (p : String)
    (content : Bytes) (n : ℕ) (e : GoError)
    (hopen : fs p = .ok { content := content, fault := some (n, e) }) :
    calculateHashForPath xxhash fs p = (xxhash (content.take n), true, none) := by
  rw [calculateHashForPath_opened xxhash fs p _ hopen]
  rfl

/-- C8, the code at the failing input. The file `a.go` opens and its read
fails after one of three bytes: `calculateHashForPath` returns a nil error and
the digest of the one byte read, `fileDidChange` returns `(true, nil)` and
stores that digest. -/
theorem calculateHashForPath_read_fault :
    ioCopy faultyFile = ([1], some { msg := "input/output error", notExist := false }) ∧
    calculateHashForPath sumDigest (singleFile "a.go" faultyFile) "a.go"
      = (sumDigest [1], true, none) ∧
    (fileDidChange sumDigest (singleFile "a.go" faultyFile) emptyHashes "a.go").1
      = (true, none) ∧
    (fileDidChange sumDigest (singleFile "a.go" faultyFile) emptyHashes "a.go").2 "a.go"
      = some (sumDigest [1]) ∧
    sumDigest [1] ≠ sumDigest faultyFile.content := by
  refine ⟨by decide, by decide, by decide, by decide, by decide⟩

/-! ## The rebuild action: claims -/

theorem string_length_eq_zero (s : String) : s.length = 0 ↔ s = "" := by
  cases s with
  | mk l =>
    cases l with
    | nil => exact ⟨fun _ => rfl, fun _ => rfl⟩
    | cons c t =>
      constructor
      · intro h
        simp [String.length] at h
      · intro h
        exact absurd (congrArg String.data h) (by simp)

/-- The slice `os.Args[1:]` of a non-empty `os.Args`. -/
theorem argsFrom1_nonempty (osArgs : List String) (hargs : osArgs ≠ []) :
    argsFrom1 osArgs = some (osArgs.drop 1) := by
  cases osArgs with
  | nil => exact absurd rfl hargs
  | cons a rest => rfl

/-- The result of `recompile` in terms of the outcome of the build command. -/
theorem recompile_eq (exec : Exec) (osArgs : List String) (hargs : osArgs ≠ []) :
    recompile exec osArgs =
      some (if (exec "gopherjs" (["build"] ++ osArgs.drop 1)).1.length ≠ 0
        then some (errorsNew (exec "gopherjs" (["build"] ++ osArgs.drop 1)).1)
        else (exec "gopherjs" (["build"] ++ osArgs.drop 1)).2) := by
  dsimp only [recompile]
  rw [argsFrom1_nonempty osArgs hargs]
  dsimp only
  generalize exec "gopherjs" (["build"] ++ osArgs.drop 1) = r
  rcases r with ⟨out, _ | e⟩
  · by_cases h : out.length = 0 <;> simp [h]
  · by_cases h : out.length = 0 <;> simp [h]

/-- With an empty `os.Args` the call `recompile()` panics. -/
theorem recompile_empty_args (exec : Exec) : recompile exec [] = none := rfl

/-- C10 as stated fails. A build that exits abnormally without output gives an
error whose message is the process error's, not the (empty) output text; a
build that exits normally without output gives no error at all. -/
theorem recompile_result_counterexample :
    recompile failingExec ["gopherjs-live"]
      = some (some { msg := "exit status 1", notExist := false }) ∧
    Option.map (Option.map GoError.msg) (recompile failingExec ["gopherjs-live"])
      ≠ some (some "") ∧
    recompile quietExec ["gopherjs-live"] = some none := by
  refine ⟨by decide, by decide, by decide⟩

/-- C10 (amended). Started with a non-empty `os.Args`, `recompile` runs
`gopherjs build` followed by the program's own arguments and returns. When the
build produced any output it returns a non-nil error whose message is exactly
that output; when the build produced no output it returns the process error
itself, which is nil for a normal exit. -/
theorem recompile_result (exec : Exec) (osArgs : List String) (hargs : osArgs ≠ []) :
    ((exec "gopherjs" (["build"] ++ osArgs.drop 1)).1 ≠ "" →
      recompile exec osArgs
        = some (some (errorsNew (exec "gopherjs" (["build"] ++ osArgs.drop 1)).1)) ∧
      Option.map (Option.map GoError.msg) (recompile exec osArgs)
        = some (some (exec "gopherjs" (["build"] ++ osArgs.drop 1)).1)) ∧
    ((exec "gopherjs" (["build"] ++ osArgs.drop 1)).1 = "" →
      recompile exec osArgs = some (exec "gopherjs" (["build"] ++ osArgs.drop 1)).2) := by
  rw [recompile_eq exec osArgs hargs]
  generalize exec "gopherjs" (["build"] ++ osArgs.drop 1) = r
  rcases r with ⟨out, err⟩
  have hlen := string_length_eq_zero out
  constructor
  · intro hout
    have hne : out.length ≠ 0 := fun h => hout (hlen.mp h)
    simp [hne, errorsNew]
  · intro hout
    have hz : out.length = 0 := hlen.mpr hout
    simp [hz]

theorem recompile_result_witness :
    (["gopherjs-live", "-m"] : List String) ≠ [] ∧
    (((noisyExec "gopherjs" (["build"] ++ ["gopherjs-live", "-m"].drop 1)).1 ≠ "" →
      recompile noisyExec ["gopherjs-live", "-m"]
        = some (some (errorsNew
            (noisyExec "gopherjs" (["build"] ++ ["gopherjs-live", "-m"].drop 1)).1)) ∧
      Option.map (Option.map GoError.msg) (recompile noisyExec ["gopherjs-live", "-m"])
        = some (some (noisyExec "gopherjs" (["build"] ++ ["gopherjs-live", "-m"].drop 1)).1)) ∧
    ((noisyExec "gopherjs" (["build"] ++ ["gopherjs-live", "-m"].drop 1)).1 = "" →
      recompile noisyExec ["gopherjs-live", "-m"]
        = some (noisyExec "gopherjs" (["build"] ++ ["gopherjs-live", "-m"].drop 1)).2)) :=
  ⟨by decide, recompile_result noisyExec ["gopherjs-live", "-m"] (by decide)⟩

/-! ## The dispatch loop: claims -/

/-- The index expression `filepath.Base(ev.Name)[0]` never panics: the base
name is never empty. -/
theorem filepathBase_firstChar (name : String) :
    ∃ c, firstChar (filepathBase name) = some c := by
  unfold filepathBase
  by_cases h : name = ""
  · exact ⟨'.', by simp [h, firstChar]⟩
  · simp only [h, if_false]
    cases hp : lastElement (stripTrailing name.toList.reverse) [] with
    | nil => exact ⟨'/', by simp [firstChar]⟩
    | cons c t => exact ⟨c, by simp [firstChar]⟩

/-- One iteration on an event, by the result of `fileDidChange`: error. -/
theorem step_error (xxhash : Bytes → Bytes) (osArgs : List String) (w : World)
    (fh : FileHashes) (name : String) (c : Bool) (err : GoError)
    (hres : (fileDidChange xxhash w.fs fh name).1 = (c, some err)) :
    step xxhash osArgs w fh (.event name) =
      some ([Effect.fileDidChangeCall name, Effect.chimeError err],
        (fileDidChange xxhash w.fs fh name).2) := by
  rcases hfd : fileDidChange xxhash w.fs fh name with ⟨⟨c1, e1⟩, fh1⟩
  rw [hfd] at hres
  simp only [Prod.mk.injEq] at hres
  obtain ⟨-, rfl⟩ := hres
  simp [step, hfd]

/-- One iteration on an event, by the result of `fileDidChange`: unchanged. -/
theorem step_unchanged (xxhash : Bytes → Bytes) (osArgs : List String) (w : World)
    (fh : FileHashes) (name : String)
    (hres : (fileDidChange xxhash w.fs fh name).1 = (false, none)) :
    step xxhash osArgs w fh (.event name) =
      some ([Effect.fileDidChangeCall name], (fileDidChange xxhash w.fs fh name).2) := by
  rcases hfd : fileDidChange xxhash w.fs fh name with ⟨⟨c1, e1⟩, fh1⟩
  rw [hfd] at hres
  simp only [Prod.mk.injEq] at hres
  obtain ⟨rfl, rfl⟩ := hres
  simp [step, hfd]

/-- One iteration on an event, by the result of `fileDidChange`: changed. -/
theorem step_changed (xxhash : Bytes → Bytes) (osArgs : List String) (w : World)
    (fh : FileHashes) (name : String)
    (hres : (fileDidChange xxhash w.fs fh name).1 = (true, none)) :
    step xxhash osArgs w fh (.event name) =
      if ignored name then
        some ([Effect.fileDidChangeCall name], (fileDidChange xxhash w.fs fh name).2)
      else
        match rebuild w osArgs name with
        | none => none
        | some effects =>
          some (Effect.fileDidChangeCall name :: effects,
            (fileDidChange xxhash w.fs fh name).2) := by
  rcases hfd : fileDidChange xxhash w.fs fh name with ⟨⟨c1, e1⟩, fh1⟩
  rw [hfd] at hres
  simp only [Prod.mk.injEq] at hres
  obtain ⟨rfl, rfl⟩ := hres
  obtain ⟨c, hc⟩ := filepathBase_firstChar name
  by_cases hdot : c = '.'
  · subst hdot
    simp [step, hfd, hc, ignored]
  · by_cases hext : filepathExt name = ".go"
    · simp [step, hfd, hc, ignored, hdot, hext]
    · simp [step, hfd, hc, ignored, hdot, hext]

/-- Started with a non-empty `os.Args`, lines 59 to 62 complete: the change
notice, the call `recompile()`, and `chimeError` on its error. -/
theorem rebuild_nonempty (w : World) (osArgs : List String) (name : String)
    (hargs : osArgs ≠ []) :
    ∃ result, recompile w.exec osArgs = some result ∧
      rebuild w osArgs name =
        some ([Effect.printChange name, Effect.recompileCall (["build"] ++ osArgs.drop 1)] ++
          (match result with
           | some err => [Effect.chimeError err]
           | none => [])) := by
  refine ⟨_, recompile_eq w.exec osArgs hargs, ?_⟩
  simp only [rebuild, recompile_eq w.exec osArgs hargs]

/-- Started with a non-empty `os.Args`, an iteration never panics. -/
theorem step_total (xxhash : Bytes → Bytes) (osArgs : List String) (w : World)
    (fh : FileHashes) (m : Msg) (hargs : osArgs ≠ []) :
    ∃ r, step xxhash osArgs w fh m = some r := by
  cases m with
  | error err => exact ⟨_, rfl⟩
  | event name =>
    rcases hfd : (fileDidChange xxhash w.fs fh name).1 with ⟨c, _ | err⟩
    · cases c
      · exact ⟨_, step_unchanged xxhash osArgs w fh name hfd⟩
      · rw [step_changed xxhash osArgs w fh name hfd]
        obtain ⟨result, -, hreb⟩ := rebuild_nonempty w osArgs name hargs
        rw [hreb]
        by_cases hign : ignored name = true
        · rw [if_pos hign]
          exact ⟨_, rfl⟩
        · rw [if_neg hign]
          exact ⟨_, rfl⟩
    · exact ⟨_, step_error xxhash osArgs w fh name c err hfd⟩

/-- Started with a non-empty `os.Args`, the loop processes every message of
any finite prefix of the channels. -/
theorem eventLoop_total (xxhash : Bytes → Bytes) (osArgs : List String)
    (hargs : osArgs ≠ []) (msgs : List (World × Msg)) :
    ∀ fh, ∃ r, eventLoop xxhash osArgs msgs fh = some r := by
  induction msgs with
  | nil => intro fh; exact ⟨_, rfl⟩
  | cons wm rest ih =>
    intro fh
    obtain ⟨w, m⟩ := wm
    obtain ⟨⟨t, fh1⟩, hstep⟩ := step_total xxhash osArgs w fh m hargs
    obtain ⟨⟨ts, fh2⟩, hrest⟩ := ih fh1
    exact ⟨(t ++ ts, fh2), by simp [eventLoop, hstep, hrest]⟩

/-- C3 as stated fails. The path `b.txt` is ignored by the filter, yet one
iteration on its notification calls `fileDidChange`, and the mapping, empty
before, holds a digest for `b.txt` afterwards. -/
theorem step_filter_counterexample :
    ignored "b.txt" = true ∧
    emptyHashes "b.txt" = none ∧
    Option.map Prod.fst
      (step sumDigest ["gopherjs-live"] txtWorld emptyHashes (.event "b.txt"))
      = some [Effect.fileDidChangeCall "b.txt"] ∧
    Option.map (fun r => r.2 "b.txt")
      (step sumDigest ["gopherjs-live"] txtWorld emptyHashes (.event "b.txt"))
      = some (some (sumDigest [120])) := by
  refine ⟨by decide, rfl, by decide, by decide⟩

/-- C3 (amended). For a notification whose path has a base name starting with
a dot or an extension other than `.go`, one iteration calls `fileDidChange`
once, reports its error (if any) through `chimeError`, and does nothing else:
`recompile` is not invoked and no change notice is printed. The mapping after
the iteration is the one `fileDidChange` leaves. -/
theorem step_filter (xxhash : Bytes → Bytes) (osArgs : List String) (w : World)
    (fh : FileHashes) (name : String) (hign : ignored name = true) :
    step xxhash osArgs w fh (.event name) =
      some (Effect.fileDidChangeCall name ::
          (match (fileDidChange xxhash w.fs fh name).1.2 with
           | some err => [Effect.chimeError err]
           | none => []),
        (fileDidChange xxhash w.fs fh name).2) ∧
    ∀ t fh1, step xxhash osArgs w fh (.event name) = some (t, fh1) →
      (∀ args, Effect.recompileCall args ∉ t) ∧ Effect.printChange name ∉ t := by
  have key : step xxhash osArgs w fh (.event name) =
      some (Effect.fileDidChangeCall name ::
          (match (fileDidChange xxhash w.fs fh name).1.2 with
           | some err => [Effect.chimeError err]
           | none => []),
        (fileDidChange xxhash w.fs fh name).2) := by
    rcases hfd : (fileDidChange xxhash w.fs fh name).1 with ⟨c, _ | err⟩
    · cases c
      · rw [step_unchanged xxhash osArgs w fh name hfd]
      · rw [step_changed xxhash osArgs w fh name hfd, hign]
        rfl
    · rw [step_error xxhash osArgs w fh name c err hfd]
  refine ⟨key, ?_⟩
  intro t fh1 hstep
  rw [key] at hstep
  simp only [Option.some.injEq, Prod.mk.injEq] at hstep
  obtain ⟨rfl, -⟩ := hstep
  cases (fileDidChange xxhash w.fs fh name).1.2 <;> simp

theorem step_filter_witness :
    ignored "b.txt" = true ∧
    (step sumDigest ["gopherjs-live"] txtWorld emptyHashes (.event "b.txt") =
      some (Effect.fileDidChangeCall "b.txt" ::
          (match (fileDidChange sumDigest txtWorld.fs emptyHashes "b.txt").1.2 with
           | some err => [Effect.chimeError err]
           | none => []),
        (fileDidChange sumDigest txtWorld.fs emptyHashes "b.txt").2) ∧
    ∀ t fh1, step sumDigest ["gopherjs-live"] txtWorld emptyHashes (.event "b.txt")
        = some (t, fh1) →
      (∀ args, Effect.recompileCall args ∉ t) ∧ Effect.printChange "b.txt" ∉ t) :=
  ⟨by decide, step_filter sumDigest ["gopherjs-live"] txtWorld emptyHashes "b.txt" (by decide)⟩

/-- C9 as stated fails. Started with an empty `os.Args`, the notification for
the changed file `a.go`, whose path passes the ignore filter, makes
`fileDidChange` return `(true, nil)`; the call `recompile()` then panics at
`os.Args[1:]` inside the goroutine, so the iteration does not complete and the
loop does not reach the notification that follows. -/
theorem step_dispatch_counterexample :
    ignored "a.go" = false ∧
    (fileDidChange xxhashSum goWorld.fs emptyHashes "a.go").1 = (true, none) ∧
    recompile goWorld.exec [] = none ∧
    (step xxhashSum [] goWorld emptyHashes (.event "a.go")).isNone = true ∧
    (eventLoop xxhashSum [] [(goWorld, .event "a.go"), (goWorld, .event "a.go")]
      emptyHashes).isNone = true := by
  refine ⟨by decide, by decide, rfl, by decide, by decide⟩

/-- C9 (amended). Started with a non-empty `os.Args`, for a notification whose
path passes the ignore filter, one iteration calls `fileDidChange` once and
then: on an error, reports it once through `chimeError` and does not invoke
`recompile`; on `changed = false`, does nothing more; on `changed = true`,
prints the change notice and invokes `recompile`, which returns, reporting its
error (if any) through `chimeError`. So `recompile` is invoked exactly when
`fileDidChange` returns `(true, nil)`. In every case the iteration completes
and the loop processes the messages that follow. -/
theorem step_dispatch (xxhash : Bytes → Bytes) (osArgs : List String) (w : World)
    (fh : FileHashes) (name : String) (hargs : osArgs ≠ [])
    (hpass : ignored name = false) :
    (∀ c err, (fileDidChange xxhash w.fs fh name).1 = (c, some err) →
      step xxhash osArgs w fh (.event name) =
        some ([Effect.fileDidChangeCall name, Effect.chimeError err],
          (fileDidChange xxhash w.fs fh name).2)) ∧
    ((fileDidChange xxhash w.fs fh name).1 = (false, none) →
      step xxhash osArgs w fh (.event name) =
        some ([Effect.fileDidChangeCall name], (fileDidChange xxhash w.fs fh name).2)) ∧
    ((fileDidChange xxhash w.fs fh name).1 = (true, none) →
      ∃ result, recompile w.exec osArgs = some result ∧
        step xxhash osArgs w fh (.event name) =
          some ([Effect.fileDidChangeCall name, Effect.printChange name,
              Effect.recompileCall (["build"] ++ osArgs.drop 1)] ++
              (match result with
               | some err => [Effect.chimeError err]
               | none => []),
            (fileDidChange xxhash w.fs fh name).2)) ∧
    (∃ t, step xxhash osArgs w fh (.event name)
        = some (t, (fileDidChange xxhash w.fs fh name).2) ∧
      ((∃ args, Effect.recompileCall args ∈ t) ↔
        (fileDidChange xxhash w.fs fh name).1 = (true, none)) ∧
      ∀ rest : List (World × Msg), ∃ ts fh2,
        eventLoop xxhash osArgs rest (fileDidChange xxhash w.fs fh name).2 = some (ts, fh2) ∧
        eventLoop xxhash osArgs ((w, .event name) :: rest) fh = some (t ++ ts, fh2)) := by
  have hchanged : (fileDidChange xxhash w.fs fh name).1 = (true, none) →
      ∃ result, recompile w.exec osArgs = some result ∧
        step xxhash osArgs w fh (.event name) =
          some ([Effect.fileDidChangeCall name, Effect.printChange name,
              Effect.recompileCall (["build"] ++ osArgs.drop 1)] ++
              (match result with
               | some err => [Effect.chimeError err]
               | none => []),
            (fileDidChange xxhash w.fs fh name).2) := by
    intro hres
    obtain ⟨result, hrec, hreb⟩ := rebuild_nonempty w osArgs name hargs
    refine ⟨result, hrec, ?_⟩
    rw [step_changed xxhash osArgs w fh name hres, hpass, hreb]
    rfl
  refine ⟨fun c err hres => step_error xxhash osArgs w fh name c err hres,
    fun hres => step_unchanged xxhash osArgs w fh name hres, hchanged, ?_⟩
  have hloop : ∀ t, step xxhash osArgs w fh (.event name)
        = some (t, (fileDidChange xxhash w.fs fh name).2) →
      ∀ rest : List (World × Msg), ∃ ts fh2,
        eventLoop xxhash osArgs rest (fileDidChange xxhash w.fs fh name).2 = some (ts, fh2) ∧
        eventLoop xxhash osArgs ((w, .event name) :: rest) fh = some (t ++ ts, fh2) := by
    intro t hstep rest
    obtain ⟨⟨ts, fh2⟩, hrest⟩ :=
      eventLoop_total xxhash osArgs hargs rest (fileDidChange xxhash w.fs fh name).2
    exact ⟨ts, fh2, hrest, by simp [eventLoop, hstep, hrest]⟩
  rcases hfd : (fileDidChange xxhash w.fs fh name).1 with ⟨c, _ | err⟩
  · cases c
    · have hstep := step_unchanged xxhash osArgs w fh name hfd
      exact ⟨_, hstep, by simp, hloop _ hstep⟩
    · obtain ⟨result, -, hstep⟩ := hchanged hfd
      exact ⟨_, hstep, by simp, hloop _ hstep⟩
  · have hstep := step_error xxhash osArgs w fh name c err hfd
    exact ⟨_, hstep, by simp, hloop _ hstep⟩

theorem step_dispatch_witness :
    (["gopherjs-live"] : List String) ≠ [] ∧
    ignored "a.go" = false ∧
    (fileDidChange xxhashSum goWorld.fs emptyHashes "a.go").1 = (true, none) ∧
    ((∀ c err, (fileDidChange xxhashSum goWorld.fs emptyHashes "a.go").1 = (c, some err) →
      step xxhashSum ["gopherjs-live"] goWorld emptyHashes (.event "a.go") =
        some ([Effect.fileDidChangeCall "a.go", Effect.chimeError err],
          (fileDidChange xxhashSum goWorld.fs emptyHashes "a.go").2)) ∧
    ((fileDidChange xxhashSum goWorld.fs emptyHashes "a.go").1 = (false, none) →
      step xxhashSum ["gopherjs-live"] goWorld emptyHashes (.event "a.go") =
        some ([Effect.fileDidChangeCall "a.go"],
          (fileDidChange xxhashSum goWorld.fs emptyHashes "a.go").2)) ∧
    ((fileDidChange xxhashSum goWorld.fs emptyHashes "a.go").1 = (true, none) →
      ∃ result, recompile goWorld.exec ["gopherjs-live"] = some result ∧
        step xxhashSum ["gopherjs-live"] goWorld emptyHashes (.event "a.go") =
          some ([Effect.fileDidChangeCall "a.go", Effect.printChange "a.go",
              Effect.recompileCall (["build"] ++ ["gopherjs-live"].drop 1)] ++
              (match result with
               | some err => [Effect.chimeError err]
               | none => []),
            (fileDidChange xxhashSum goWorld.fs emptyHashes "a.go").2)) ∧
    (∃ t, step xxhashSum ["gopherjs-live"] goWorld emptyHashes (.event "a.go")
        = some (t, (fileDidChange xxhashSum goWorld.fs emptyHashes "a.go").2) ∧
      ((∃ args, Effect.recompileCall args ∈ t) ↔
        (fileDidChange xxhashSum goWorld.fs emptyHashes "a.go").1 = (true, none)) ∧
      ∀ rest : List (World × Msg), ∃ ts fh2,
        eventLoop xxhashSum ["gopherjs-live"] rest
          (fileDidChange xxhashSum goWorld.fs emptyHashes "a.go").2 = some (ts, fh2) ∧
        eventLoop xxhashSum ["gopherjs-live"] ((goWorld, .event "a.go") :: rest) emptyHashes
          = some (t ++ ts, fh2))) :=
  ⟨by decide, by decide, by decide,
    step_dispatch xxhashSum ["gopherjs-live"] goWorld emptyHashes "a.go" (by decide)
      (by decide)⟩

end GopherjsLive
